import Mathlib

/-!
Verification of the Devbox storage-version conversion and upgrade tooling
from the sealos repository (controllers/devbox).

Shallow-embedding conventions, used throughout:
* Go string-typed enums (`DevboxState`, `CommitStatus`, `NetworkType`,
  `DevboxPhase`) are modelled as `String`; the cross-version re-tag
  `v1alpha2.CommitStatus(x)` is the identity on the underlying string.
* `metav1.Time` is modelled as `Int` (its zero value as `0`).
* Go maps are modelled as association lists whose iteration order is the
  entry order of the list.  Go's own map iteration order is unspecified, so
  the list order stands for one possible iteration order.  Insertion
  (`m[k] = v`) replaces the value in place when the key is present and
  appends the new key otherwise, matching Go's key-stable semantics.
* Pointer-valued map entries (`map[string]*CommitRecord`) carry
  `Option CommitRecord` values: `none` is Go's `nil` pointer.
* Fields a Go composite literal does not mention are set to their Go zero
  value (`""`, `0`, `false`, `[]`) explicitly.
-/

/-- CommitHistory of api/v1alpha1 (devbox_types / devbox_conversion): one
commit event with its container id, produced image, time, pod, status,
predicated status and node. -/
structure CommitHistory where
  containerID : String
  image : String
  time : Int
  pod : String
  status : String
  predicatedStatus : String
  node : String
deriving DecidableEq, Repr

/-- CommitRecord of api/v1alpha2, with the fields the conversion code in
api/v1alpha1/devbox_conversion.go sets (base image, commit image, node, the
three timestamps and the commit status). -/
structure CommitRecord where
  baseImage : String
  commitImage : String
  node : String
  generateTime : Int
  scheduleTime : Int
  commitTime : Int
  commitStatus : String
deriving DecidableEq, Repr

/-- CommitRecordMap of api/v1alpha2: Go's `map[string]*CommitRecord`,
modelled as an association list of keys and possibly-nil records. -/
abbrev CommitRecordMap := List (String × Option CommitRecord)

/-- Insertion into a `CommitRecordMap`: replace in place when the key is
present, append otherwise (Go `m[k] = v`). -/
def mapInsert : CommitRecordMap → String → Option CommitRecord → CommitRecordMap
  | [], k, v => [(k, v)]
  | p :: rest, k, v =>
      if p.1 = k then (k, v) :: rest else p :: mapInsert rest k v

/-- Lookup in a `CommitRecordMap` (Go `v, ok := m[k]`): `none` when the key
is absent, `some v` when present with stored pointer `v`. -/
def mapLookup : CommitRecordMap → String → Option (Option CommitRecord)
  | [], _ => none
  | p :: rest, k => if p.1 = k then some p.2 else mapLookup rest k

/-- Keys of a `CommitRecordMap` in iteration order. -/
def mapKeys (m : CommitRecordMap) : List String := m.map (·.1)

/-- transformCommitHistory (api/v1alpha1/devbox_conversion.go, lines
127-137): one v1 commit event becomes a v2 record with `BaseImage = ""` and
all three timestamps copied from the event's single time. -/
def transformCommitHistory (commitHistory : CommitHistory) : CommitRecord :=
  { baseImage := ""
    commitImage := commitHistory.image
    node := commitHistory.node
    generateTime := commitHistory.time
    scheduleTime := commitHistory.time
    commitTime := commitHistory.time
    commitStatus := commitHistory.status }

/-- Loop body of transformCommitHistories: skip an event whose ContainerID
is empty, otherwise store the transformed record under the ContainerID. -/
def commitStep (m : CommitRecordMap) (commitHistory : CommitHistory) : CommitRecordMap :=
  if commitHistory.containerID = "" then m
  else mapInsert m commitHistory.containerID (some (transformCommitHistory commitHistory))

/-- transformCommitHistories (api/v1alpha1/devbox_conversion.go, lines
116-125; the copy in api/v1alpha2/devbox_conversion.go lines 103-112 is
line-for-line identical): walk the event list in order, skip events with an
empty ContainerID, and store the transformed record under the event's
ContainerID, starting from the empty map. -/
def transformCommitHistories (commitHistories : List CommitHistory) : CommitRecordMap :=
  commitHistories.foldl commitStep []

/-- The CommitHistory entry `transformCommitRecords` appends for a map entry
`(containerID, record)`: image and node copied, the single v1 `Time` set to
the record's `CommitTime`, `Pod` left empty, and both status fields set to
the record's `CommitStatus`. -/
def recordToHistory (containerID : String) (commitRecord : CommitRecord) : CommitHistory :=
  { image := commitRecord.commitImage
    time := commitRecord.commitTime
    pod := ""
    status := commitRecord.commitStatus
    predicatedStatus := commitRecord.commitStatus
    node := commitRecord.node
    containerID := containerID }

/-- Loop body of transformCommitRecords: skip a `nil` record, otherwise
append the flattened entry. -/
def recordStep (commitHistories : List CommitHistory) (p : String × Option CommitRecord) :
    List CommitHistory :=
  match p.2 with
  | none => commitHistories
  | some commitRecord => commitHistories ++ [recordToHistory p.1 commitRecord]

/-- transformCommitRecords (api/v1alpha1/devbox_conversion.go, lines
198-215): iterate the record map, skip `nil` records, and append one
CommitHistory per remaining entry, in iteration order and with no sorting. -/
def transformCommitRecords (commitRecords : CommitRecordMap) : List CommitHistory :=
  commitRecords.foldl recordStep []

/-- Annotations (and labels) of a Kubernetes object: Go's
`map[string]string`, modelled as an association list with the same
replace-or-append insertion as `CommitRecordMap` (a `nil` Go map is the
empty list). -/
abbrev AnnMap := List (String × String)

/-- Insertion into an annotation map (Go `m[k] = v`). -/
def annInsert : AnnMap → String → String → AnnMap
  | [], k, v => [(k, v)]
  | p :: rest, k, v =>
      if p.1 = k then (k, v) :: rest else p :: annInsert rest k v

/-- Lookup in an annotation map (Go `v, ok := m[k]`). -/
def annLookup : AnnMap → String → Option String
  | [], _ => none
  | p :: rest, k => if p.1 = k then some p.2 else annLookup rest k

/-- Deletion from an annotation map (Go `delete(m, k)`). -/
def annErase (m : AnnMap) (k : String) : AnnMap :=
  m.filter (fun p => p.1 ≠ k)

/-- ObjectMeta: the identity metadata both ConvertTo and ConvertFrom copy
wholesale (`dst.ObjectMeta = src.ObjectMeta`).  `nspace` stands for the Go
field `Namespace`. -/
structure ObjectMeta where
  name : String
  nspace : String
  labels : AnnMap
  annotations : AnnMap
deriving DecidableEq, Repr

/-- TypeMeta: apiVersion and kind, set by the transform functions. -/
structure TypeMeta where
  apiVersion : String
  kind : String
deriving DecidableEq, Repr

/-- Config of api/v1alpha1 and api/v1alpha2: the field lists coincide and
every field is copied verbatim by the conversions, so one Lean structure
stands for both versions.  Opaque corev1 payload types (EnvVar,
ContainerPort, ServicePort, VolumeMount, Volume) are modelled as String. -/
structure Config where
  user : String
  labels : AnnMap
  annotations : AnnMap
  command : List String
  args : List String
  workingDir : String
  env : List String
  releaseCommand : List String
  releaseArgs : List String
  ports : List String
  appPorts : List String
  volumeMounts : List String
  volumes : List String
deriving DecidableEq, Repr

/-- NetworkSpec (both versions): the network type string and extra ports. -/
structure NetworkSpec where
  type : String
  extraPorts : List String
deriving DecidableEq, Repr

/-- NetworkStatus (both versions). -/
structure NetworkStatus where
  type : String
  nodePort : Int
  tailNet : String
deriving DecidableEq, Repr

/-- DevboxSpec of api/v1alpha1: has `Squash`, no v2 `StorageLimit` is read
by the conversion.  `Resource` (corev1.ResourceList), `Tolerations` and
`Affinity` payloads are opaque. -/
structure DevboxSpecV1 where
  state : String
  resource : AnnMap
  squash : Bool
  image : String
  templateID : String
  config : Config
  storageLimit : String
  networkSpec : NetworkSpec
  runtimeClassName : String
  nodeSelector : AnnMap
  tolerations : List String
  affinity : Option String
deriving DecidableEq, Repr

/-- DevboxSpec of api/v1alpha2: `StorageLimit` replaces v1's `Squash`. -/
structure DevboxSpecV2 where
  state : String
  resource : AnnMap
  image : String
  templateID : String
  config : Config
  storageLimit : String
  networkSpec : NetworkSpec
  runtimeClassName : String
  nodeSelector : AnnMap
  tolerations : List String
  affinity : Option String
deriving DecidableEq, Repr

/-- DevboxStatus of api/v1alpha1: commit history list plus two
corev1.ContainerState snapshots (opaque, zero value `""`). -/
structure DevboxStatusV1 where
  network : NetworkStatus
  phase : String
  commitHistory : List CommitHistory
  state : String
  lastTerminationState : String
deriving DecidableEq, Repr

/-- DevboxStatus of api/v1alpha2: record map keyed by container id, the
distinguished content id, plus node and last container status (opaque). -/
structure DevboxStatusV2 where
  network : NetworkStatus
  phase : String
  state : String
  commitRecords : CommitRecordMap
  contentID : String
  node : String
  lastContainerStatus : String
deriving DecidableEq, Repr

/-- Devbox of api/v1alpha1. -/
structure DevboxV1 where
  typeMeta : TypeMeta
  meta : ObjectMeta
  spec : DevboxSpecV1
  status : DevboxStatusV1
deriving DecidableEq, Repr

/-- Devbox of api/v1alpha2. -/
structure DevboxV2 where
  typeMeta : TypeMeta
  meta : ObjectMeta
  spec : DevboxSpecV2
  status : DevboxStatusV2
deriving DecidableEq, Repr

/-- transformDevboxV1alpha1ToV1alpha2 (api/v1alpha1/devbox_conversion.go,
lines 56-114): sets TypeMeta, re-tags the enums, copies the config
field-by-field, hardcodes `StorageLimit = "10Gi"`, and rebuilds the status
with `transformCommitHistories`; v2-only status fields (ContentID, Node,
LastContainerStatus) are left at their zero value.  ObjectMeta is copied by
the caller (`ConvertTo`), so it is passed through here unchanged. -/
def transformDevboxV1alpha1ToV1alpha2 (src : DevboxV1) (dstMeta : ObjectMeta) : DevboxV2 :=
  { typeMeta := { apiVersion := "devbox.sealos.io/v1alpha2", kind := "Devbox" }
    meta := dstMeta
    spec :=
      { state := src.spec.state
        resource := src.spec.resource
        image := src.spec.image
        templateID := src.spec.templateID
        config :=
          { user := src.spec.config.user
            labels := src.spec.config.labels
            annotations := src.spec.config.annotations
            command := src.spec.config.command
            args := src.spec.config.args
            workingDir := src.spec.config.workingDir
            env := src.spec.config.env
            releaseCommand := src.spec.config.releaseCommand
            releaseArgs := src.spec.config.releaseArgs
            ports := src.spec.config.ports
            appPorts := src.spec.config.appPorts
            volumeMounts := src.spec.config.volumeMounts
            volumes := src.spec.config.volumes }
        storageLimit := "10Gi"
        networkSpec :=
          { type := src.spec.networkSpec.type
            extraPorts := src.spec.networkSpec.extraPorts }
        runtimeClassName := src.spec.runtimeClassName
        nodeSelector := src.spec.nodeSelector
        tolerations := src.spec.tolerations
        affinity := src.spec.affinity }
    status :=
      { network :=
          { type := src.status.network.type
            nodePort := src.status.network.nodePort
            tailNet := src.status.network.tailNet }
        phase := src.status.phase
        state := src.spec.state
        commitRecords := transformCommitHistories src.status.commitHistory
        contentID := ""
        node := ""
        lastContainerStatus := "" } }

/-- Devbox.ConvertTo (api/v1alpha1/devbox_conversion.go, lines 30-40): copy
ObjectMeta, then transform spec and status to v1alpha2. -/
def DevboxV1.ConvertTo (src : DevboxV1) : DevboxV2 :=
  transformDevboxV1alpha1ToV1alpha2 src src.meta

/-- transformDevboxV1alpha2ToV1alpha1 (api/v1alpha1/devbox_conversion.go,
lines 139-196): the downgrade direction; `Squash` is set to `false`, the
commit-record map is flattened with `transformCommitRecords`, and the two
v1-only container-state snapshots are left at their zero value. -/
def transformDevboxV1alpha2ToV1alpha1 (src : DevboxV2) (dstMeta : ObjectMeta) : DevboxV1 :=
  { typeMeta := { apiVersion := "devbox.sealos.io/v1alpha1", kind := "Devbox" }
    meta := dstMeta
    spec :=
      { state := src.spec.state
        resource := src.spec.resource
        image := src.spec.image
        templateID := src.spec.templateID
        squash := false
        config :=
          { user := src.spec.config.user
            labels := src.spec.config.labels
            annotations := src.spec.config.annotations
            command := src.spec.config.command
            args := src.spec.config.args
            workingDir := src.spec.config.workingDir
            env := src.spec.config.env
            releaseCommand := src.spec.config.releaseCommand
            releaseArgs := src.spec.config.releaseArgs
            ports := src.spec.config.ports
            appPorts := src.spec.config.appPorts
            volumeMounts := src.spec.config.volumeMounts
            volumes := src.spec.config.volumes }
        storageLimit := ""
        networkSpec :=
          { type := src.spec.networkSpec.type
            extraPorts := src.spec.networkSpec.extraPorts }
        runtimeClassName := src.spec.runtimeClassName
        nodeSelector := src.spec.nodeSelector
        tolerations := src.spec.tolerations
        affinity := src.spec.affinity }
    status :=
      { network :=
          { type := src.status.network.type
            nodePort := src.status.network.nodePort
            tailNet := src.status.network.tailNet }
        phase := src.status.phase
        commitHistory := transformCommitRecords src.status.commitRecords
        state := ""
        lastTerminationState := "" } }

/-- Devbox.ConvertFrom (api/v1alpha1/devbox_conversion.go, lines 43-54):
copy ObjectMeta, then transform spec and status back to v1alpha1. -/
def DevboxV1.ConvertFrom (src : DevboxV2) : DevboxV1 :=
  transformDevboxV1alpha2ToV1alpha1 src src.meta

/-- Annotation key `devbox.sealos.io/upgrade-status` (pkg/upgrade). -/
def annotationUpgradeStatus : String := "devbox.sealos.io/upgrade-status"

/-- Annotation key `devbox.sealos.io/upgrade-step` (pkg/upgrade). -/
def annotationUpgradeStep : String := "devbox.sealos.io/upgrade-step"

/-- Annotation key `devbox.sealos.io/upgrade-operation-id` (pkg/upgrade). -/
def annotationUpgradeOperation : String := "devbox.sealos.io/upgrade-operation-id"

/-- Annotation key `devbox.sealos.io/upgrade-timestamp` (pkg/upgrade). -/
def annotationUpgradeTimestamp : String := "devbox.sealos.io/upgrade-timestamp"

/-- Annotation key `devbox.sealos.io/original-state` (pkg/upgrade). -/
def annotationOriginalState : String := "devbox.sealos.io/original-state"

/-- Annotation key `devbox.sealos.io/upgrade-version` (pkg/upgrade). -/
def annotationUpgradeVersion : String := "devbox.sealos.io/upgrade-version"

/-- Annotation key `devbox.sealos.io/upgrade-error` (pkg/upgrade). -/
def annotationUpgradeError : String := "devbox.sealos.io/upgrade-error"

/-- Annotation key `devbox.sealos.io/upgrade-progress` (pkg/upgrade). -/
def annotationUpgradeProgress : String := "devbox.sealos.io/upgrade-progress"

/-- UpgradeInfo (pkg/upgrade): the tracker's per-resource state. -/
structure UpgradeInfo where
  operationID : String
  step : String
  status : String
  version : String
  originalState : String
  error : String
  progress : String
deriving DecidableEq, Repr

/-- AddUpgradeAnnotations (pkg/upgrade, the progress tracker's setInfo): the
pure core of the read-modify-write.  `latest` is the annotation map of the
freshly fetched resource, `now` the formatted timestamp.  `OriginalState`
is written only when non-empty and not already present; every other
non-empty field is written unconditionally; the timestamp is always
stamped. -/
def AddUpgradeAnnotations (latest : AnnMap) (info : UpgradeInfo) (now : String) : AnnMap :=
  let a1 :=
    if info.originalState ≠ "" then
      if (annLookup latest annotationOriginalState).isSome then latest
      else annInsert latest annotationOriginalState info.originalState
    else latest
  let a2 := if info.operationID ≠ "" then annInsert a1 annotationUpgradeOperation info.operationID else a1
  let a3 := if info.step ≠ "" then annInsert a2 annotationUpgradeStep info.step else a2
  let a4 := if info.status ≠ "" then annInsert a3 annotationUpgradeStatus info.status else a3
  let a5 := if info.version ≠ "" then annInsert a4 annotationUpgradeVersion info.version else a4
  let a6 := if info.error ≠ "" then annInsert a5 annotationUpgradeError info.error else a5
  let a7 := if info.progress ≠ "" then annInsert a6 annotationUpgradeProgress info.progress else a6
  annInsert a7 annotationUpgradeTimestamp now

/-- Upgrade-tracking annotation keys `ClearUpgradeAnnotations` deletes; the
source keeps `AnnotationOriginalState` off this list on purpose. -/
def upgradeAnnotationKeys : List String :=
  [annotationUpgradeStatus,
   annotationUpgradeStep,
   annotationUpgradeOperation,
   annotationUpgradeTimestamp,
   annotationUpgradeVersion,
   annotationUpgradeError,
   annotationUpgradeProgress]

/-- ClearUpgradeAnnotations (pkg/upgrade): the pure core of the clear
operation on the freshly fetched resource: delete each upgrade-tracking
annotation, touch nothing else (when nothing was present the source skips
the write, which leaves the same state). -/
def ClearUpgradeAnnotations (latest : DevboxV1) : DevboxV1 :=
  { latest with
    meta :=
      { latest.meta with
        annotations := upgradeAnnotationKeys.foldl annErase latest.meta.annotations } }

/-- forceStorageVersionUpdate (cmd/devbox-transform/main.go, lines 345-369):
the pure core of the forced write on the freshly fetched Devbox: stamp the
`devbox.sealos.io/storage-upgrade` marker annotation with a
transform-name-unixtime value, and set `Spec.RuntimeClassName` to
`"devbox-runtime"`. -/
def forceStorageVersionUpdate (latest : DevboxV2) (unixTime : Int) : DevboxV2 :=
  { latest with
    meta :=
      { latest.meta with
        annotations :=
          annInsert latest.meta.annotations "devbox.sealos.io/storage-upgrade"
            ("transform-" ++ latest.meta.name ++ "-" ++ toString unixTime) }
    spec := { latest.spec with runtimeClassName := "devbox-runtime" } }

/-- RetryConfig (cmd/devbox-transform/main.go, lines 61-65): delays are in
milliseconds. -/
structure RetryConfig where
  maxRetries : Nat
  baseDelay : Nat
  maxDelay : Nat
deriving DecidableEq, Repr

/-- DefaultRetryConfig (cmd/devbox-transform/main.go, lines 68-72): 3
retries, 100ms base delay, 5s cap. -/
def DefaultRetryConfig : RetryConfig :=
  { maxRetries := 3, baseDelay := 100, maxDelay := 5000 }

/-- The delay the retry loop waits before attempt `attempt` (1-based),
computed inside `retryWithBackoff`:
`BaseDelay * (1 << (attempt-1))` capped at `MaxDelay`. -/
def backoffDelay (config : RetryConfig) (attempt : Nat) : Nat :=
  min (config.baseDelay * 2 ^ (attempt - 1)) config.maxDelay

/-- The body of retryWithBackoff's `for attempt := 0; attempt <=
config.MaxRetries; attempt++` loop, unrolled on the number of remaining
iterations.  `op i` tells whether the call of `operation()` on attempt `i`
(0-based) succeeds.  Returns (overall success, attempts actually made,
delays waited in order). -/
def retryFrom (op : Nat → Bool) (config : RetryConfig) :
    Nat → Nat → Bool × Nat × List Nat
  | _, 0 => (false, 0, [])
  | attempt, remaining + 1 =>
      let waits := if attempt > 0 then [backoffDelay config attempt] else []
      if op attempt then (true, 1, waits)
      else
        let r := retryFrom op config (attempt + 1) remaining
        (r.1, r.2.1 + 1, waits ++ r.2.2)

/-- retryWithBackoff (cmd/devbox-transform/main.go, lines 75-118): up to
`MaxRetries + 1` attempts starting at attempt 0; a delay is waited before
every attempt but the first; the loop stops at the first success and
returns an error once every attempt has failed. -/
def retryWithBackoff (op : Nat → Bool) (config : RetryConfig) : Bool × Nat × List Nat :=
  retryFrom op config 0 (config.maxRetries + 1)

/-- Success of one resource's transform under the retry policy: whether
`retryWithBackoff` over that resource's per-attempt outcomes succeeds. -/
def transformSucceeds (ops : Nat → Bool) : Bool :=
  (retryWithBackoff ops DefaultRetryConfig).1

/-- transformDevboxes (cmd/devbox-transform/main.go, lines 179-260), control
flow only: resources are processed strictly in order (the batch bounds only
insert pacing sleeps and never change the order), each one's forced write
runs under `retryWithBackoff`, and a resource whose retries are exhausted
makes the function return that error at once, so no later resource is
touched.  `ops d` gives resource `d`'s per-attempt outcomes.  Returns the
resources whose transform was completed and whether the whole batch
succeeded. -/
def transformDevboxes (items : List DevboxV2) (ops : DevboxV2 → Nat → Bool) :
    List DevboxV2 × Bool :=
  match items with
  | [] => ([], true)
  | devbox :: rest =>
      if transformSucceeds (ops devbox) then
        let r := transformDevboxes rest ops
        (devbox :: r.1, r.2)
      else ([], false)

theorem mapLookup_mapInsert (m : CommitRecordMap) (k k' : String) (v : Option CommitRecord) :
    mapLookup (mapInsert m k v) k' = if k' = k then some v else mapLookup m k' := by
  induction m with
  | nil =>
      by_cases h : k' = k
      · subst h; simp [mapInsert, mapLookup]
      · simp [mapInsert, mapLookup, h, Ne.symm h]
  | cons p rest ih =>
      by_cases hp : p.1 = k
      · by_cases h : k' = k
        · subst h
          simp [mapInsert, hp, mapLookup]
        · simp [mapInsert, hp, mapLookup, h, Ne.symm h]
      · by_cases hq : p.1 = k'
        · have hk : ¬ k' = k := fun hh => hp (hq.trans hh)
          simp [mapInsert, hp, mapLookup, hq, hk]
        · simp [mapInsert, hp, mapLookup, hq, ih]

theorem mapKeys_mapInsert (m : CommitRecordMap) (k : String) (v : Option CommitRecord) :
    mapKeys (mapInsert m k v) =
      if k ∈ mapKeys m then mapKeys m else mapKeys m ++ [k] := by
  induction m with
  | nil => simp [mapInsert, mapKeys]
  | cons p rest ih =>
      by_cases hp : p.1 = k
      · subst hp
        simp [mapInsert, mapKeys]
      · have hk : ¬ k = p.1 := fun hh => hp hh.symm
        have h1 : mapInsert (p :: rest) k v = p :: mapInsert rest k v := by
          simp [mapInsert, hp]
        have h2 : mapKeys (p :: mapInsert rest k v) = p.1 :: mapKeys (mapInsert rest k v) := rfl
        have h3 : mapKeys (p :: rest) = p.1 :: mapKeys rest := rfl
        rw [h1, h2, ih, h3]
        by_cases hm : k ∈ mapKeys rest
        · rw [if_pos hm, if_pos (List.mem_cons.2 (Or.inr hm))]
        · rw [if_neg hm, if_neg (by simp [List.mem_cons, hk, hm]), List.cons_append]

theorem mem_mapKeys_mapInsert (m : CommitRecordMap) (k k' : String) (v : Option CommitRecord) :
    k' ∈ mapKeys (mapInsert m k v) ↔ k' = k ∨ k' ∈ mapKeys m := by
  rw [mapKeys_mapInsert]
  by_cases hm : k ∈ mapKeys m
  · rw [if_pos hm]
    constructor
    · exact Or.inr
    · rintro (rfl | h)
      · exact hm
      · exact h
  · rw [if_neg hm]
    simp [or_comm]

theorem nodup_mapKeys_mapInsert (m : CommitRecordMap) (k : String) (v : Option CommitRecord)
    (h : (mapKeys m).Nodup) : (mapKeys (mapInsert m k v)).Nodup := by
  rw [mapKeys_mapInsert]
  by_cases hm : k ∈ mapKeys m
  · rwa [if_pos hm]
  · rw [if_neg hm]
    simpa [List.nodup_append] using ⟨h, hm⟩

theorem annLookup_annInsert (m : AnnMap) (k k' v : String) :
    annLookup (annInsert m k v) k' = if k' = k then some v else annLookup m k' := by
  induction m with
  | nil =>
      by_cases h : k' = k
      · subst h; simp [annInsert, annLookup]
      · simp [annInsert, annLookup, h, Ne.symm h]
  | cons p rest ih =>
      by_cases hp : p.1 = k
      · by_cases h : k' = k
        · subst h
          simp [annInsert, hp, annLookup]
        · simp [annInsert, hp, annLookup, h, Ne.symm h]
      · by_cases hq : p.1 = k'
        · have hk : ¬ k' = k := fun hh => hp (hq.trans hh)
          simp [annInsert, hp, annLookup, hq, hk]
        · simp [annInsert, hp, annLookup, hq, ih]

theorem annLookup_annErase (m : AnnMap) (k k' : String) :
    annLookup (annErase m k) k' = if k' = k then none else annLookup m k' := by
  induction m with
  | nil => simp [annErase, annLookup]
  | cons p rest ih =>
      by_cases hp : p.1 = k
      · have h1 : annErase (p :: rest) k = annErase rest k := by
          simp [annErase, List.filter_cons, hp]
        rw [h1, ih]
        by_cases h : k' = k
        · simp [h]
        · have hq : ¬ p.1 = k' := by rw [hp]; exact fun hh => h hh.symm
          simp [annLookup, h, hq]
      · have h1 : annErase (p :: rest) k = p :: annErase rest k := by
          simp [annErase, List.filter_cons, hp]
        rw [h1]
        by_cases hq : p.1 = k'
        · have h : ¬ k' = k := fun hh => hp (hq.trans hh)
          simp [annLookup, hq, h]
        · simp [annLookup, hq, ih]

theorem transformCommitHistories_append_one (t : List CommitHistory) (h : CommitHistory) :
    transformCommitHistories (t ++ [h]) = commitStep (transformCommitHistories t) h := by
  simp [transformCommitHistories, List.foldl_append]

theorem mapLookup_transformCommitHistories (l : List CommitHistory) (cid : String)
    (hc : cid ≠ "") :
    mapLookup (transformCommitHistories l) cid =
      ((l.filter (fun h => h.containerID = cid)).getLast?).map
        (fun h => some (transformCommitHistory h)) := by
  induction l using List.reverseRecOn with
  | nil => simp [transformCommitHistories, mapLookup]
  | append_singleton t h ih =>
      rw [transformCommitHistories_append_one]
      by_cases hh : h.containerID = cid
      · have hne : ¬ h.containerID = "" := by rw [hh]; exact hc
        rw [show commitStep (transformCommitHistories t) h
              = mapInsert (transformCommitHistories t) h.containerID
                  (some (transformCommitHistory h)) from by simp [commitStep, hne]]
        rw [mapLookup_mapInsert, if_pos hh.symm, List.filter_append]
        rw [show List.filter (fun x => decide (x.containerID = cid)) [h] = [h] from by
          simp [hh]]
        rw [List.getLast?_concat]
        rfl
      · have hstep : mapLookup (commitStep (transformCommitHistories t) h) cid
            = mapLookup (transformCommitHistories t) cid := by
          by_cases hne : h.containerID = ""
          · simp [commitStep, hne]
          · rw [show commitStep (transformCommitHistories t) h
                  = mapInsert (transformCommitHistories t) h.containerID
                      (some (transformCommitHistory h)) from by simp [commitStep, hne]]
            rw [mapLookup_mapInsert, if_neg (fun hx => hh hx.symm)]
        rw [hstep, ih, List.filter_append]
        rw [show List.filter (fun x => decide (x.containerID = cid)) [h] = [] from by
          simp [hh]]
        rw [List.append_nil]

theorem mem_mapKeys_transformCommitHistories (l : List CommitHistory) (cid : String) :
    cid ∈ mapKeys (transformCommitHistories l) ↔
      cid ≠ "" ∧ ∃ h ∈ l, h.containerID = cid := by
  induction l using List.reverseRecOn with
  | nil => simp [transformCommitHistories, mapKeys]
  | append_singleton t h ih =>
      rw [transformCommitHistories_append_one]
      by_cases hne : h.containerID = ""
      · rw [show commitStep (transformCommitHistories t) h
              = transformCommitHistories t from by simp [commitStep, hne]]
        rw [ih]
        constructor
        · rintro ⟨hcne, x, hx, hxe⟩
          exact ⟨hcne, x, List.mem_append_left _ hx, hxe⟩
        · rintro ⟨hcne, x, hx, hxe⟩
          rcases List.mem_append.1 hx with hx | hx
          · exact ⟨hcne, x, hx, hxe⟩
          · rw [List.mem_singleton] at hx
            subst hx
            exact absurd (hne ▸ hxe) (fun he => hcne he.symm)
      · rw [show commitStep (transformCommitHistories t) h
              = mapInsert (transformCommitHistories t) h.containerID
                  (some (transformCommitHistory h)) from by simp [commitStep, hne]]
        rw [mem_mapKeys_mapInsert, ih]
        constructor
        · rintro (rfl | ⟨hcne, x, hx, hxe⟩)
          · exact ⟨hne, h, List.mem_append_right _ (List.mem_singleton.2 rfl), rfl⟩
          · exact ⟨hcne, x, List.mem_append_left _ hx, hxe⟩
        · rintro ⟨hcne, x, hx, hxe⟩
          rcases List.mem_append.1 hx with hx | hx
          · exact Or.inr ⟨hcne, x, hx, hxe⟩
          · rw [List.mem_singleton] at hx
            subst hx
            exact Or.inl hxe.symm

theorem nodup_mapKeys_transformCommitHistories (l : List CommitHistory) :
    (mapKeys (transformCommitHistories l)).Nodup := by
  induction l using List.reverseRecOn with
  | nil => simp [transformCommitHistories, mapKeys]
  | append_singleton t h ih =>
      rw [transformCommitHistories_append_one]
      by_cases hne : h.containerID = ""
      · rw [show commitStep (transformCommitHistories t) h
              = transformCommitHistories t from by simp [commitStep, hne]]
        exact ih
      · rw [show commitStep (transformCommitHistories t) h
              = mapInsert (transformCommitHistories t) h.containerID
                  (some (transformCommitHistory h)) from by simp [commitStep, hne]]
        exact nodup_mapKeys_mapInsert _ _ _ ih

theorem transformCommitHistories_filter_valid (l : List CommitHistory) :
    transformCommitHistories (l.filter (fun h => h.containerID ≠ "")) =
      transformCommitHistories l := by
  induction l using List.reverseRecOn with
  | nil => rfl
  | append_singleton t h ih =>
      rw [List.filter_append, transformCommitHistories_append_one]
      by_cases hne : h.containerID = ""
      · rw [show List.filter (fun x => decide (x.containerID ≠ "")) [h] = [] from by
          simp [hne]]
        rw [List.append_nil, ih]
        rw [show commitStep (transformCommitHistories t) h
              = transformCommitHistories t from by simp [commitStep, hne]]
      · rw [show List.filter (fun x => decide (x.containerID ≠ "")) [h] = [h] from by
          simp [hne]]
        rw [transformCommitHistories_append_one, ih]

theorem foldl_recordStep (m : CommitRecordMap) (acc : List CommitHistory) :
    m.foldl recordStep acc =
      acc ++ m.filterMap (fun p => p.2.map (fun r => recordToHistory p.1 r)) := by
  induction m generalizing acc with
  | nil => simp
  | cons p rest ih =>
      rcases p with ⟨k, _ | r⟩
      · simpa [recordStep, List.filterMap_cons] using ih acc
      · rw [List.foldl_cons]
        rw [show recordStep acc (k, some r) = acc ++ [recordToHistory k r] from rfl]
        rw [ih, List.filterMap_cons]
        simp

theorem transformCommitRecords_eq_filterMap (m : CommitRecordMap) :
    transformCommitRecords m =
      m.filterMap (fun p => p.2.map (fun r => recordToHistory p.1 r)) := by
  simpa using foldl_recordStep m []

theorem length_transformCommitRecords (m : CommitRecordMap) :
    (transformCommitRecords m).length = (m.filter (fun p => p.2.isSome)).length := by
  rw [transformCommitRecords_eq_filterMap]
  induction m with
  | nil => rfl
  | cons p rest ih =>
      rcases p with ⟨k, _ | r⟩
      · simpa [List.filterMap_cons, List.filter_cons] using ih
      · simpa [List.filterMap_cons, List.filter_cons] using ih

theorem retryFrom_attempts_le (op : Nat → Bool) (c : RetryConfig) :
    ∀ (r a : Nat), (retryFrom op c a r).2.1 ≤ r
  | 0, _ => by simp [retryFrom]
  | r + 1, a => by
      rw [retryFrom]
      by_cases hop : op a = true
      · simp [hop]
      · have ih := retryFrom_attempts_le op c r (a + 1)
        simp [hop]
        omega

theorem retryFrom_succeeds (op : Nat → Bool) (c : RetryConfig) :
    ∀ (r a : Nat), (retryFrom op c a r).1 = (List.range' a r).any op
  | 0, _ => by simp [retryFrom]
  | r + 1, a => by
      rw [retryFrom, List.range'_succ]
      by_cases hop : op a = true
      · simp [hop]
      · have ih := retryFrom_succeeds op c r (a + 1)
        simp [hop, ih]

theorem retryFrom_delays (op : Nat → Bool) (c : RetryConfig) :
    ∀ (r a : Nat), 1 ≤ a →
      (retryFrom op c a r).2.2 = (List.range' a (retryFrom op c a r).2.1).map (backoffDelay c)
  | 0, a, _ => by simp [retryFrom]
  | r + 1, a, ha => by
      rw [retryFrom]
      have hpos : a > 0 := ha
      by_cases hop : op a = true
      · simp [hop, hpos, List.range'_succ]
      · have ih := retryFrom_delays op c r (a + 1) (le_trans ha (Nat.le_succ a))
        simp only [hop, hpos, if_true, if_pos hpos, Bool.false_eq_true, if_false]
        rw [List.range'_succ, List.map_cons]
        simp [ih]

theorem retryWithBackoff_attempts_le (op : Nat → Bool) (c : RetryConfig) :
    (retryWithBackoff op c).2.1 ≤ c.maxRetries + 1 :=
  retryFrom_attempts_le op c (c.maxRetries + 1) 0

theorem retryWithBackoff_succeeds (op : Nat → Bool) (c : RetryConfig) :
    (retryWithBackoff op c).1 = (List.range' 0 (c.maxRetries + 1)).any op :=
  retryFrom_succeeds op c (c.maxRetries + 1) 0

theorem retryWithBackoff_delays (op : Nat → Bool) (c : RetryConfig) :
    (retryWithBackoff op c).2.2 =
      (List.range' 1 ((retryWithBackoff op c).2.1 - 1)).map (backoffDelay c) := by
  rw [retryWithBackoff, retryFrom]
  by_cases hop : op 0 = true
  · simp [hop]
  · have h := retryFrom_delays op c c.maxRetries 1 le_rfl
    simp [hop, h]

theorem transformDevboxes_eq (items : List DevboxV2) (ops : DevboxV2 → Nat → Bool) :
    transformDevboxes items ops =
      (items.takeWhile (fun d => transformSucceeds (ops d)),
       items.all (fun d => transformSucceeds (ops d))) := by
  induction items with
  | nil => rfl
  | cons d rest ih =>
      by_cases hd : transformSucceeds (ops d) = true
      · simp [transformDevboxes, hd, ih, List.takeWhile_cons, List.all_cons]
      · simp [transformDevboxes, hd, List.takeWhile_cons, List.all_cons]

theorem annLookup_ite_annInsert (a : AnnMap) (c : Prop) [Decidable c] (k v k' : String)
    (hk : k' ≠ k) :
    annLookup (if c then annInsert a k v else a) k' = annLookup a k' := by
  by_cases hc : c
  · rw [if_pos hc, annLookup_annInsert, if_neg hk]
  · rw [if_neg hc]

theorem AddUpgradeAnnotations_lookup_originalState (a : AnnMap) (info : UpgradeInfo)
    (t : String) :
    annLookup (AddUpgradeAnnotations a info t) annotationOriginalState =
      match annLookup a annotationOriginalState with
      | some v => some v
      | none => if info.originalState ≠ "" then some info.originalState else none := by
  simp only [AddUpgradeAnnotations]
  rw [annLookup_annInsert,
    if_neg (by decide : ¬ annotationOriginalState = annotationUpgradeTimestamp)]
  rw [annLookup_ite_annInsert _ _ _ _ _
    (by decide : annotationOriginalState ≠ annotationUpgradeProgress)]
  rw [annLookup_ite_annInsert _ _ _ _ _
    (by decide : annotationOriginalState ≠ annotationUpgradeError)]
  rw [annLookup_ite_annInsert _ _ _ _ _
    (by decide : annotationOriginalState ≠ annotationUpgradeVersion)]
  rw [annLookup_ite_annInsert _ _ _ _ _
    (by decide : annotationOriginalState ≠ annotationUpgradeStatus)]
  rw [annLookup_ite_annInsert _ _ _ _ _
    (by decide : annotationOriginalState ≠ annotationUpgradeStep)]
  rw [annLookup_ite_annInsert _ _ _ _ _
    (by decide : annotationOriginalState ≠ annotationUpgradeOperation)]
  by_cases h1 : info.originalState ≠ ""
  · rw [if_pos h1]
    cases hl : annLookup a annotationOriginalState with
    | some v => simp [hl]
    | none => simp [hl, h1, annLookup_annInsert]
  · rw [if_neg h1]
    cases hl : annLookup a annotationOriginalState with
    | some v => simp
    | none => simp [h1]

theorem AddUpgradeAnnotations_keeps_originalState (a : AnnMap) (info : UpgradeInfo)
    (t v : String) (h : annLookup a annotationOriginalState = some v) :
    annLookup (AddUpgradeAnnotations a info t) annotationOriginalState = some v := by
  rw [AddUpgradeAnnotations_lookup_originalState, h]

theorem annLookup_foldl_annErase (ks : List String) (a : AnnMap) (k : String) :
    annLookup (ks.foldl annErase a) k = if k ∈ ks then none else annLookup a k := by
  induction ks generalizing a with
  | nil => simp
  | cons k0 kt ih =>
      rw [List.foldl_cons, ih]
      by_cases hk : k ∈ kt
      · rw [if_pos hk, if_pos (List.mem_cons.2 (Or.inr hk))]
      · rw [if_neg hk, annLookup_annErase]
        by_cases hk0 : k = k0
        · rw [if_pos hk0, if_pos (List.mem_cons.2 (Or.inl hk0))]
        · rw [if_neg hk0, if_neg (by simp [hk0, hk])]

theorem AddUpgradeAnnotations_writes_originalState (a : AnnMap) (info : UpgradeInfo)
    (t : String) (h0 : annLookup a annotationOriginalState = none)
    (h1 : info.originalState ≠ "") :
    annLookup (AddUpgradeAnnotations a info t) annotationOriginalState =
      some info.originalState := by
  rw [AddUpgradeAnnotations_lookup_originalState, h0]
  simp [h1]

theorem mapLookup_eq_none_of_not_mem (m : CommitRecordMap) (k : String)
    (h : k ∉ mapKeys m) : mapLookup m k = none := by
  induction m with
  | nil => rfl
  | cons p rest ih =>
      have h1 : ¬ p.1 = k := fun he => h (by simp [mapKeys, he])
      have h2 : k ∉ mapKeys rest := fun hm => h (by
        have : mapKeys (p :: rest) = p.1 :: mapKeys rest := rfl
        rw [this]
        exact List.mem_cons.2 (Or.inr hm))
      rw [mapLookup, if_neg h1]
      exact ih h2

/-- Concrete valid commit event: ContainerID "c1", image "img:v1", time 1. -/
def c1Event : CommitHistory :=
  { containerID := "c1", image := "img:v1", time := 1, pod := "p1",
    status := "Success", predicatedStatus := "Success", node := "n1" }

/-- Later commit event with the same ContainerID "c1" but image "img:v2". -/
def c1Later : CommitHistory :=
  { containerID := "c1", image := "img:v2", time := 2, pod := "p2",
    status := "Success", predicatedStatus := "Success", node := "n2" }

/-- Second valid commit event: ContainerID "c2", image "img:v2", time 2. -/
def c2Event : CommitHistory :=
  { containerID := "c2", image := "img:v2", time := 2, pod := "p2",
    status := "Success", predicatedStatus := "Success", node := "n2" }

/-- C1: the conversion code evaluated at one valid event (ContainerID "c1",
image "img:v1") produces exactly one record, not two, and that record's
BaseImage is the empty string rather than the workload's initial image: the
function takes no initial image at all and builds no chain and no synthetic
content record, contradicting the claim and the package's own test. -/
theorem C1_code_builds_no_chain :
    (transformCommitHistories [c1Event]).length = 1 ∧
    transformCommitHistories [c1Event] =
      [("c1", some { baseImage := "", commitImage := "img:v1", node := "n1",
                     generateTime := 1, scheduleTime := 1, commitTime := 1,
                     commitStatus := "Success" })] := by
  decide

/-- C2: the conversion code returns only a record map (no content key), the
map for the empty input is empty — so no key can index a Pending record —
and for two Success events every record's status is "Success": no Pending
entry exists anywhere in the output. -/
theorem C2_code_has_no_pending_entry :
    transformCommitHistories [] = ([] : CommitRecordMap) ∧
    (transformCommitHistories [c1Event, c2Event]).map
        (fun p => p.2.map CommitRecord.commitStatus) =
      [some "Success", some "Success"] := by
  decide

/-- C4: upgrading a v1 Devbox to v1alpha2 (ConvertTo) and downgrading back
(ConvertFrom) preserves the name and the namespace exactly: both directions
copy ObjectMeta wholesale and the transform functions never touch it. -/
theorem C4_roundtrip_identity_metadata (w : DevboxV1) :
    (DevboxV1.ConvertFrom (DevboxV1.ConvertTo w)).meta.name = w.meta.name ∧
    (DevboxV1.ConvertFrom (DevboxV1.ConvertTo w)).meta.nspace = w.meta.nspace :=
  ⟨rfl, rfl⟩

/-- C5: events with an empty ContainerID never appear in the output map —
the empty string is never a key — and they do not affect the records built
from the remaining events: the output on any event list equals the output
on the list with the empty-ContainerID events removed. -/
theorem C5_empty_containerID_filtered (l : List CommitHistory) :
    mapLookup (transformCommitHistories l) "" = none ∧
    transformCommitHistories l =
      transformCommitHistories (l.filter (fun h => h.containerID ≠ "")) := by
  constructor
  · apply mapLookup_eq_none_of_not_mem
    intro hm
    exact ((mem_mapKeys_transformCommitHistories l "").1 hm).1 rfl
  · exact (transformCommitHistories_filter_valid l).symm

/-- C10: the output map is keyed by ContainerID: its keys have no
duplicates, a key is present exactly when some input event carries that
(non-empty) ContainerID, the stored record is the transform of the LAST
input event with that ContainerID (a later event silently overwrites an
earlier one), and on the concrete input of two events sharing ContainerID
"c1" the output holds a single record, the later event's, so the map can
hold fewer records than there are valid input events. -/
theorem C10_keyed_by_containerID (l : List CommitHistory) (cid : String) (hc : cid ≠ "") :
    (mapKeys (transformCommitHistories l)).Nodup ∧
    (cid ∈ mapKeys (transformCommitHistories l) ↔ ∃ h ∈ l, h.containerID = cid) ∧
    mapLookup (transformCommitHistories l) cid =
      ((l.filter (fun h => h.containerID = cid)).getLast?).map
        (fun h => some (transformCommitHistory h)) ∧
    transformCommitHistories [c1Event, c1Later] =
      [("c1", some (transformCommitHistory c1Later))] := by
  refine ⟨nodup_mapKeys_transformCommitHistories l, ?_,
    mapLookup_transformCommitHistories l cid hc, by decide⟩
  rw [mem_mapKeys_transformCommitHistories]
  exact ⟨fun h => h.2, fun h => ⟨hc, h⟩⟩

/-- Witness for C10 at the concrete input [c1Event] with key "c1". -/
theorem C10_keyed_by_containerID_witness :
    (mapKeys (transformCommitHistories [c1Event])).Nodup ∧
    ("c1" ∈ mapKeys (transformCommitHistories [c1Event]) ↔
      ∃ h ∈ [c1Event], h.containerID = "c1") ∧
    mapLookup (transformCommitHistories [c1Event]) "c1" =
      (([c1Event].filter (fun h => h.containerID = "c1")).getLast?).map
        (fun h => some (transformCommitHistory h)) ∧
    transformCommitHistories [c1Event, c1Later] =
      [("c1", some (transformCommitHistory c1Later))] :=
  C10_keyed_by_containerID [c1Event] "c1" (by decide)

/-- UpgradeInfo for a first setInfo call with OriginalState "Running". -/
def c6Info1 : UpgradeInfo :=
  { operationID := "op-1", step := "pause", status := "in-progress",
    version := "v1alpha2", originalState := "Running", error := "", progress := "" }

/-- UpgradeInfo for a second setInfo call with OriginalState "Stopped". -/
def c6Info2 : UpgradeInfo :=
  { operationID := "op-2", step := "transform", status := "in-progress",
    version := "v1alpha2", originalState := "Stopped", error := "", progress := "" }

/-- C6: first-write-wins for the OriginalState annotation: after two
setInfo calls on a resource that had no OriginalState annotation, with a
non-empty OriginalState in the first call, the stored value is the first
call's, whatever the second call carries; and more generally any setInfo
call on a resource already carrying an OriginalState annotation leaves that
annotation's value unchanged. -/
theorem C6_first_write_wins_originalState (ann : AnnMap) (info1 info2 : UpgradeInfo)
    (t1 t2 : String) (h0 : annLookup ann annotationOriginalState = none)
    (h1 : info1.originalState ≠ "") :
    annLookup (AddUpgradeAnnotations (AddUpgradeAnnotations ann info1 t1) info2 t2)
        annotationOriginalState = some info1.originalState ∧
    ∀ (a : AnnMap) (v : String) (info : UpgradeInfo) (t : String),
      annLookup a annotationOriginalState = some v →
      annLookup (AddUpgradeAnnotations a info t) annotationOriginalState = some v := by
  constructor
  · exact AddUpgradeAnnotations_keeps_originalState _ info2 t2 info1.originalState
      (AddUpgradeAnnotations_writes_originalState ann info1 t1 h0 h1)
  · exact fun a v info t h => AddUpgradeAnnotations_keeps_originalState a info t v h

/-- Witness for C6: two concrete calls on an initially unannotated resource
retain "Running", the first call's OriginalState. -/
theorem C6_first_write_wins_originalState_witness :
    annLookup (AddUpgradeAnnotations (AddUpgradeAnnotations [] c6Info1 "t1") c6Info2 "t2")
        annotationOriginalState = some "Running" :=
  (C6_first_write_wins_originalState [] c6Info1 c6Info2 "t1" "t2" rfl (by decide)).1

/-- C7: ClearUpgradeAnnotations deletes exactly the upgrade-tracking
annotations (status, step, operation-id, timestamp, version, error,
progress): looking up any key after the clear gives `none` when the key is
one of those seven and the original value otherwise — in particular the
OriginalState annotation is untouched — while spec, status, type metadata,
name, namespace and labels are unchanged. -/
theorem C7_clear_removes_only_upgrade_keys (d : DevboxV1) (k : String) :
    (ClearUpgradeAnnotations d).spec = d.spec ∧
    (ClearUpgradeAnnotations d).status = d.status ∧
    (ClearUpgradeAnnotations d).typeMeta = d.typeMeta ∧
    (ClearUpgradeAnnotations d).meta.name = d.meta.name ∧
    (ClearUpgradeAnnotations d).meta.nspace = d.meta.nspace ∧
    (ClearUpgradeAnnotations d).meta.labels = d.meta.labels ∧
    annLookup (ClearUpgradeAnnotations d).meta.annotations k =
      (if k ∈ upgradeAnnotationKeys then none else annLookup d.meta.annotations k) ∧
    annLookup (ClearUpgradeAnnotations d).meta.annotations annotationOriginalState =
      annLookup d.meta.annotations annotationOriginalState := by
  refine ⟨rfl, rfl, rfl, rfl, rfl, rfl, ?_, ?_⟩
  · exact annLookup_foldl_annErase upgradeAnnotationKeys d.meta.annotations k
  · rw [show (ClearUpgradeAnnotations d).meta.annotations
          = upgradeAnnotationKeys.foldl annErase d.meta.annotations from rfl]
    rw [annLookup_foldl_annErase, if_neg (by decide)]

/-- Concrete v2 Devbox whose RuntimeClassName is empty, for C9. -/
def c9Devbox : DevboxV2 :=
  { typeMeta := { apiVersion := "devbox.sealos.io/v1alpha2", kind := "Devbox" }
    meta := { name := "box", nspace := "ns", labels := [], annotations := [] }
    spec :=
      { state := "Stopped", resource := [], image := "img", templateID := ""
        config :=
          { user := "devbox", labels := [], annotations := [], command := []
            args := [], workingDir := "", env := [], releaseCommand := []
            releaseArgs := [], ports := [], appPorts := [], volumeMounts := []
            volumes := [] }
        storageLimit := "10Gi"
        networkSpec := { type := "NodePort", extraPorts := [] }
        runtimeClassName := "", nodeSelector := [], tolerations := []
        affinity := none }
    status :=
      { network := { type := "NodePort", nodePort := 0, tailNet := "" }
        phase := "Stopped", state := "Stopped", commitRecords := []
        contentID := "", node := "", lastContainerStatus := "" } }

/-- C9 counterexample: the forced write is not a pure annotation stamp: on
a Devbox whose RuntimeClassName is empty the written object's spec differs
from the original spec (RuntimeClassName has been set to
"devbox-runtime"). -/
theorem C9_counterexample_spec_changed :
    (forceStorageVersionUpdate c9Devbox 0).spec ≠ c9Devbox.spec := by
  decide

/-- C9 amended: the forced write stamps the
`devbox.sealos.io/storage-upgrade` marker annotation AND sets
`Spec.RuntimeClassName` to "devbox-runtime"; status, type metadata, name,
namespace, labels, all other annotations and every other spec field are
unchanged. -/
theorem C9_force_update_effect (d : DevboxV2) (t : Int) (k : String) :
    (forceStorageVersionUpdate d t).status = d.status ∧
    (forceStorageVersionUpdate d t).typeMeta = d.typeMeta ∧
    (forceStorageVersionUpdate d t).meta.name = d.meta.name ∧
    (forceStorageVersionUpdate d t).meta.nspace = d.meta.nspace ∧
    (forceStorageVersionUpdate d t).meta.labels = d.meta.labels ∧
    (forceStorageVersionUpdate d t).spec =
      { d.spec with runtimeClassName := "devbox-runtime" } ∧
    annLookup (forceStorageVersionUpdate d t).meta.annotations
        "devbox.sealos.io/storage-upgrade" =
      some ("transform-" ++ d.meta.name ++ "-" ++ toString t) ∧
    (k ≠ "devbox.sealos.io/storage-upgrade" →
      annLookup (forceStorageVersionUpdate d t).meta.annotations k =
        annLookup d.meta.annotations k) := by
  refine ⟨rfl, rfl, rfl, rfl, rfl, rfl, ?_, ?_⟩
  · rw [show (forceStorageVersionUpdate d t).meta.annotations
          = annInsert d.meta.annotations "devbox.sealos.io/storage-upgrade"
              ("transform-" ++ d.meta.name ++ "-" ++ toString t) from rfl]
    rw [annLookup_annInsert, if_pos rfl]
  · intro hk
    rw [show (forceStorageVersionUpdate d t).meta.annotations
          = annInsert d.meta.annotations "devbox.sealos.io/storage-upgrade"
              ("transform-" ++ d.meta.name ++ "-" ++ toString t) from rfl]
    rw [annLookup_annInsert, if_neg hk]

/-- Commit record with CommitTime 5, stored first in the c3 map. -/
def c3RecordA : CommitRecord :=
  { baseImage := "base", commitImage := "img:a", node := "n1",
    generateTime := 5, scheduleTime := 5, commitTime := 5, commitStatus := "Success" }

/-- Commit record with CommitTime 3, stored second in the c3 map. -/
def c3RecordB : CommitRecord :=
  { baseImage := "img:a", commitImage := "img:b", node := "n2",
    generateTime := 3, scheduleTime := 3, commitTime := 3, commitStatus := "Success" }

/-- Record map whose iteration order (a then b) is not ascending by
CommitTime (5 then 3). -/
def c3Map : CommitRecordMap := [("a", some c3RecordA), ("b", some c3RecordB)]

/-- C3 counterexample: the flattened v1 list is NOT ordered ascending by
CommitTime: the source performs no sort, so the output order is the map's
iteration order; on c3Map (one possible Go iteration order of that map) the
output times are 5 then 3. -/
theorem C3_counterexample_not_sorted :
    ¬ List.Chain' (fun x y : CommitHistory => x.time ≤ y.time)
      (transformCommitRecords c3Map) := by
  intro hch
  have he : transformCommitRecords c3Map =
      [recordToHistory "a" c3RecordA, recordToHistory "b" c3RecordB] := rfl
  rw [he] at hch
  have h1 := (List.chain'_cons.1 hch).1
  norm_num [recordToHistory, c3RecordA, c3RecordB] at h1

/-- C3 amended: the downgrade flattening yields one entry per non-nil map
entry — the synthetic Pending content record included, as an entry with
empty CommitImage — in map-iteration order with no sorting by CommitTime,
and each entry's single Time field is the record's CommitTime. -/
theorem C3_flatten_per_entry_commitTime (m : CommitRecordMap) :
    transformCommitRecords m =
      m.filterMap (fun p => p.2.map (fun r => recordToHistory p.1 r)) ∧
    (transformCommitRecords m).length = (m.filter (fun p => p.2.isSome)).length ∧
    ∀ h ∈ transformCommitRecords m, ∃ k r, (k, some r) ∈ m ∧
      h = recordToHistory k r ∧ h.time = r.commitTime := by
  refine ⟨transformCommitRecords_eq_filterMap m, length_transformCommitRecords m, ?_⟩
  intro h hmem
  rw [transformCommitRecords_eq_filterMap] at hmem
  rcases List.mem_filterMap.1 hmem with ⟨p, hp, hfp⟩
  obtain ⟨k, po⟩ := p
  rcases po with _ | r
  · simp at hfp
  · refine ⟨k, r, hp, ?_, ?_⟩
    · simpa using hfp.symm
    · have he : h = recordToHistory k r := by simpa using hfp.symm
      rw [he]
      rfl

/-- C8: the retry policy and its batch behaviour: at most 4 total attempts
(3 retries) are ever made; the whole call succeeds exactly when one of the
4 possible attempts succeeds (so after the final failed attempt an error is
returned); the delay waited before retry k is 100ms doubled per attempt and
capped at 5000ms; and the batch transform processes resources in order up
to the first resource whose retries are exhausted, succeeding only when
every resource's transform succeeded — a failed resource aborts the batch,
the resources after it are untouched. -/
theorem C8_retry_policy_and_abort (op : Nat → Bool) (items : List DevboxV2)
    (ops : DevboxV2 → Nat → Bool) :
    (retryWithBackoff op DefaultRetryConfig).2.1 ≤ 4 ∧
    (retryWithBackoff op DefaultRetryConfig).1 = (List.range' 0 4).any op ∧
    (retryWithBackoff op DefaultRetryConfig).2.2 =
      (List.range' 1 ((retryWithBackoff op DefaultRetryConfig).2.1 - 1)).map
        (fun k => min (100 * 2 ^ (k - 1)) 5000) ∧
    transformDevboxes items ops =
      (items.takeWhile (fun d => transformSucceeds (ops d)),
       items.all (fun d => transformSucceeds (ops d))) := by
  refine ⟨retryWithBackoff_attempts_le op DefaultRetryConfig,
    retryWithBackoff_succeeds op DefaultRetryConfig, ?_,
    transformDevboxes_eq items ops⟩
  have h := retryWithBackoff_delays op DefaultRetryConfig
  simpa [backoffDelay, DefaultRetryConfig] using h
